import Mathlib

/-!
# Verification of the ComCAD primitive-extraction core and LOD render policy

Shallow embedding of `src/CORE/cat_loader.py` (attribute resolution,
block-instance transforms, primitive extraction, extents) and of the
level-of-detail policy in `src/ui/main.py` (`LayerItem.paint`).

Conventions of the embedding:

* Python floats are modelled as rationals (`ℚ`); none of the properties
  verified here sits on a floating-point rounding boundary.
* `ezdxf.math.Matrix44` (an external collaborator) is modelled by its
  documented semantics: a 4×4 row-major matrix acting on ROW vectors,
  `transform v = v ⬝ M` with the translation part in the fourth row, and
  `A @ B` the ordinary matrix product `A ⬝ B`, so that `(A @ B).transform v`
  applies `A` first and then `B` (left-to-right chaining).
* Angles are tracked in degrees.  The source converts to radians and
  normalizes by adding `2π`; multiplication by `π/180` is a strictly
  monotone bijection commuting with full turns, so the degree-level loop
  (adding `360`) is the same loop.  The transcendental functions
  (`math.cos`, `math.sin`, `math.hypot`, `math.atan2`, `math.degrees`)
  are abstracted as an arbitrary `MathFns` record, keeping every
  definition executable; no verified property depends on their values.
* Python `try/except` failure points (missing attribute, failed table
  lookup) are modelled with `Option`.
-/

namespace ComCAD

/-- An RGB colour triple, the result type of colour resolution. -/
abbrev RGB := ℕ × ℕ × ℕ

/-- A 2D point. -/
abbrev Pt2 := ℚ × ℚ

/-- A 3D point. -/
abbrev Pt3 := ℚ × ℚ × ℚ

/-- `ezdxf.math.Matrix44`: a 4×4 row-major matrix over ℚ (external
collaborator, modelled by its documented row-vector convention). -/
abbrev M44 := Fin 4 → Fin 4 → ℚ

/-- The matrix product `a ⬝ b`, i.e. ezdxf `a @ b`: row `i` of `a`
against column `j` of `b`.  With the row-vector action below,
`m44transform (m44mul a b) v = m44transform b (m44transform a v)`:
`a` is applied first. -/
def m44mul (a b : M44) : M44 := fun i j =>
  a i 0 * b 0 j + a i 1 * b 1 j + a i 2 * b 2 j + a i 3 * b 3 j

/-- `Matrix44.transform`: the row vector `(x, y, z, 1)` times the matrix;
the translation terms come from the fourth row. -/
def m44transform (m : M44) (p : Pt3) : Pt3 :=
  (p.1 * m 0 0 + p.2.1 * m 1 0 + p.2.2 * m 2 0 + m 3 0,
   p.1 * m 0 1 + p.2.1 * m 1 1 + p.2.2 * m 2 1 + m 3 1,
   p.1 * m 0 2 + p.2.1 * m 1 2 + p.2.2 * m 2 2 + m 3 2)

/-- `apply_point` from `extraer_primitivas_basicas`: transform a point if a
matrix is present, otherwise return it unchanged. -/
def apply_point (pt : Pt3) (m : Option M44) : Pt3 :=
  match m with
  | some mm => m44transform mm pt
  | none => pt

/-- A row of the document's layer table.  `Option` fields model DXF
attributes that may be absent (`getattr` defaults are applied at the
use sites, as in the source). -/
structure LayerRec where
  name : String
  color : Option ℤ
  lineweight : Option ℤ
  linetype : Option String
  is_off : Bool
  is_frozen : Bool
deriving DecidableEq

/-- A hatch boundary-path edge (`LineEdge` / `ArcEdge` / `EllipseEdge`). -/
inductive HEdge where
  | lineE (sx sy ex ey : ℚ)
  | arcE (cx cy r startAngle endAngle : ℚ) (ccwFlag : Bool)
  | ellipseE (cx cy ratioV mx my startParam endParam : ℚ)
deriving DecidableEq

/-- The kind-specific payload of a DXF entity, for the entity types the
extractor consumes; `other` covers every unrecognized `dxftype`. -/
inductive EKind where
  | line (p1 p2 : Pt3)
  | lwpolyline (vs : List Pt2) (closed : Bool)
  | polyline (vs : List Pt3) (closed : Bool)
  | circle (center : Pt3) (radius : ℚ)
  | arc (center : Pt3) (radius : ℚ) (startAngle endAngle : ℚ)
  | text (insert : Pt3) (height : Option ℚ) (rotation : Option ℚ) (value : String)
  | mtext (insert : Pt3) (charHeight : Option ℚ) (rotation : Option ℚ)
      (plainTx : Option String) (rawTx : String)
  | hatch (paths : List (List HEdge)) (solidFill : Bool)
  | insert (blockName : String) (matr : Option M44)
  | other

/-- A DXF entity: common dxf attributes plus the kind payload.
`matr` on an insert is the result of `e.matrix44()` (`none` models the
exception branch); `invisible` is `getattr(e.dxf, "invisible", 0)`. -/
structure Entity where
  kind : EKind
  layerAttr : Option String
  color : Option ℤ
  lineweight : Option ℤ
  linetype : Option String
  invisible : Bool

/-- The parsed document graph: layer table, block-definition table and
model-space entity sequence. -/
structure Doc where
  layers : List LayerRec
  blocks : List (String × List Entity)
  msp : List Entity

/-- `doc.layers.get name` (returns `none` where the source raises). -/
def layersGet (doc : Doc) (ln : String) : Option LayerRec :=
  doc.layers.find? (fun l => l.name == ln)

/-- `doc.blocks.get name` (returns `none` where the source raises). -/
def blocksGet (doc : Doc) (bn : String) : Option (List Entity) :=
  (doc.blocks.find? (fun b => b.1 == bn)).map (fun b => b.2)

/-- Python `getattr(..., d) or d` on a numeric attribute: absent and the
falsy value `0` both fall back to the default. -/
def pyOrQ (o : Option ℚ) (d : ℚ) : ℚ :=
  match o with
  | none => d
  | some v => if v = 0 then d else v

/-- Python `getattr(..., d) or d` on a string attribute: absent and the
falsy value `""` both fall back to the default. -/
def pyOrS (o : Option String) (d : String) : String :=
  match o with
  | none => d
  | some s => if s = "" then d else s

/-- The external ACI-index→RGB table (`ezdxf.colors.aci2rgb`), given for the
standard indices 1–7 that this development exercises; any other index
models the out-of-range / table-unavailable case and yields the source's
neutral-gray fallback `(200, 200, 210)`. -/
def aci_to_rgb (c : ℤ) : RGB :=
  if c = 1 then (255, 0, 0)
  else if c = 2 then (255, 255, 0)
  else if c = 3 then (0, 255, 0)
  else if c = 4 then (0, 255, 255)
  else if c = 5 then (0, 0, 255)
  else if c = 6 then (255, 0, 255)
  else if c = 7 then (255, 255, 255)
  else (200, 200, 210)

/-- `_effective_color`: resolve BYBLOCK (code 0) against the inherited
colour, else fall through to BYLAYER (code 256 or absent), which reads the
layer's colour (default 7 when the attribute or the layer is missing). -/
def _effective_color (doc : Doc) (e : Entity) (byblock_color : Option RGB) : RGB :=
  let aci := e.color
  if aci = some 0 ∧ byblock_color.isSome then
    byblock_color.getD (200, 200, 210)
  else
    let aci := if aci = some 0 then some 256 else aci
    let idx : ℤ :=
      if aci = none ∨ aci = some 256 then
        match e.layerAttr with
        | none => 7
        | some ln =>
          match layersGet doc ln with
          | none => 7
          | some lay => lay.color.getD 7
      else aci.getD 7
    aci_to_rgb idx

/-- The `src` tag returned by the lineweight/linetype resolvers. -/
inductive Src where
  | ENTITY
  | LAYER
  | DEFAULT
deriving DecidableEq

/-- Membership in `specials = {-1, -2, -3, None}` of `_effective_lineweight`. -/
def specialLW : Option ℤ → Bool
  | none => true
  | some v => (v == -1) || (v == -2) || (v == -3)

/-- `_effective_lineweight`: a sentinel or absent raw value is replaced by
the layer's lineweight (`src = LAYER`, with `0` when the layer's own value
is again a sentinel); a failed layer lookup yields `(0, DEFAULT)`;
otherwise the raw entity value is used (`src = ENTITY`).  The final
`int(lw or 0)` is the identity on integers with `0` for `None`. -/
def _effective_lineweight (doc : Doc) (e : Entity) : ℤ × Src :=
  let lw := e.lineweight
  let vs : Option ℤ × Src :=
    if specialLW lw then
      match e.layerAttr with
      | none => (some 0, Src.DEFAULT)
      | some ln =>
        match layersGet doc ln with
        | none => (some 0, Src.DEFAULT)
        | some lay =>
          let lwl := lay.lineweight.getD 0
          (some (if specialLW (some lwl) then 0 else lwl), Src.LAYER)
    else (lw, Src.ENTITY)
  (vs.1.getD 0, vs.2)

/-- The `not lt or lt.upper() in ("BYLAYER", "BYBLOCK")` test of
`_effective_linetype`. -/
def badLT : Option String → Bool
  | none => true
  | some s => (s == "") || (s.toUpper == "BYLAYER") || (s.toUpper == "BYBLOCK")

/-- `_effective_linetype`: empty/BYLAYER/BYBLOCK names are replaced by the
layer's linetype (defaulting to CONTINUOUS), `(CONTINUOUS, DEFAULT)` on a
failed lookup, otherwise the entity's own name. -/
def _effective_linetype (doc : Doc) (e : Entity) : String × Src :=
  let lt := e.linetype
  if badLT lt then
    match e.layerAttr with
    | none => ("CONTINUOUS", Src.DEFAULT)
    | some ln =>
      match layersGet doc ln with
      | none => ("CONTINUOUS", Src.DEFAULT)
      | some lay =>
        let ltl := lay.linetype.getD "CONTINUOUS"
        ((if ltl == "" then "CONTINUOUS" else ltl), Src.LAYER)
  else (lt.getD "", Src.ENTITY)

/-- `_layer_is_visible`: a missing layer counts as visible; `is_off` and
`is_frozen` hide it. -/
def _layer_is_visible (doc : Doc) (ln : String) : Bool :=
  match layersGet doc ln with
  | none => true
  | some lay => if lay.is_off then false else if lay.is_frozen then false else true

/-- `entidad_visible` from `extraer_primitivas_basicas`. -/
def entidad_visible (doc : Doc) (e : Entity) : Bool :=
  if e.invisible then false
  else if ! _layer_is_visible doc (e.layerAttr.getD "0") then false
  else true

/-- The transcendental functions of Python's `math` module, abstracted.
`cosDeg`/`sinDeg` are cosine/sine of an angle given in degrees (the
source's `math.cos(math.radians(·))` composition), `cosRad`/`sinRad` act
on a raw radian value, `hypotQ` is `math.hypot`, `atan2Deg` is
`math.degrees(math.atan2(·, ·))` and `degreesQ` is `math.degrees`. -/
structure MathFns where
  cosDeg : ℚ → ℚ
  sinDeg : ℚ → ℚ
  cosRad : ℚ → ℚ
  sinRad : ℚ → ℚ
  hypotQ : ℚ → ℚ → ℚ
  atan2Deg : ℚ → ℚ → ℚ
  degreesQ : ℚ → ℚ

/-- The CCW normalization loop of `discretizar_arco`
(`while a1 <= a0: a1 += 2*pi`), in degrees: raise the end angle by full
turns until it lies strictly above the start angle. -/
def normCcwDeg (a0 a1 : ℚ) : ℚ :=
  if a1 ≤ a0 then normCcwDeg a0 (a1 + 360) else a1
termination_by (⌈(a0 - a1) / 360⌉ + 1).toNat
decreasing_by
  have h1 : (0:ℤ) ≤ ⌈(a0 - a1) / 360⌉ := by
    apply Int.ceil_nonneg
    have : (0:ℚ) ≤ a0 - a1 := by linarith
    positivity
  have h2 : (a0 - (a1 + 360)) / 360 = (a0 - a1) / 360 - 1 := by ring
  rw [h2, Int.ceil_sub_one]
  omega

/-- The CW normalization loop of `discretizar_arco`
(`while a0 <= a1: a0 += 2*pi`), in degrees: raise the start angle by full
turns until it lies strictly above the end angle. -/
def normCwDeg (a0 a1 : ℚ) : ℚ :=
  if a0 ≤ a1 then normCwDeg (a0 + 360) a1 else a0
termination_by (⌈(a1 - a0) / 360⌉ + 1).toNat
decreasing_by
  have h1 : (0:ℤ) ≤ ⌈(a1 - a0) / 360⌉ := by
    apply Int.ceil_nonneg
    have : (0:ℚ) ≤ a1 - a0 := by linarith
    positivity
  have h2 : (a1 - (a0 + 360)) / 360 = (a1 - a0) / 360 - 1 := by ring
  rw [h2, Int.ceil_sub_one]
  omega

/-- The sample-angle sequence of `discretizar_arco`: after direction
normalization, `steps = max 4 seg`, and sample `steps + 1` angles
`a0 + (a1 - a0) * i / steps` for `i = 0, …, steps`. -/
def arcAngles (start_deg end_deg : ℚ) (ccw : Bool) (seg : ℕ) : List ℚ :=
  let a0 := if ccw then start_deg else normCwDeg start_deg end_deg
  let a1 := if ccw then normCcwDeg start_deg end_deg else end_deg
  let steps := max 4 seg
  (List.range (steps + 1)).map (fun i => a0 + (a1 - a0) * i / steps)

/-- `discretizar_arco`: the sampled points
`(cx + cos(ang)·r, cy + sin(ang)·r)` over the normalized angle sequence. -/
def discretizar_arco (mf : MathFns) (cx cy r start_deg end_deg : ℚ)
    (ccw : Bool) (seg : ℕ) : List Pt2 :=
  (arcAngles start_deg end_deg ccw seg).map
    (fun ang => (cx + mf.cosDeg ang * r, cy + mf.sinDeg ang * r))

/-- One edge of the `hatch_loops` walk: thread `(current, first_pt)` through
an edge exactly as the source does (`first_set` is `first_pt ≠ none`,
since the two are always assigned together). -/
def hatchEdgeStep (mf : MathFns) (st : List Pt2 × Option Pt2) (edge : HEdge) :
    List Pt2 × Option Pt2 :=
  match edge with
  | .lineE x1 y1 x2 y2 =>
    let current := st.1
    let firstPt := st.2
    if firstPt = none then
      (current ++ [(x1, y1), (x2, y2)], some (x1, y1))
    else
      (current ++ [(x2, y2)], firstPt)
  | .arcE cx cy r sa ea ccwFlag =>
    let current := st.1
    let firstPt := st.2
    let start := mf.degreesQ sa
    let endd := mf.degreesQ ea
    let pts := discretizar_arco mf cx cy r start endd (! ccwFlag) 28
    if firstPt = none ∧ pts ≠ [] then
      (current ++ [pts.headD (0, 0)] ++ pts.tail, some (pts.headD (0, 0)))
    else
      (current ++ pts.tail, firstPt)
  | .ellipseE cx cy ratioV mx my sp ep =>
    let a := mf.hypotQ mx my
    let b := a * ratioV
    let ang := mf.atan2Deg my mx
    (List.range 49).foldl (fun st2 i =>
      let current := st2.1
      let firstPt := st2.2
      let tt := sp + (ep - sp) * (i : ℚ) / 48
      let x := a * mf.cosRad tt
      let y := b * mf.sinRad tt
      let xr := x * mf.cosDeg ang - y * mf.sinDeg ang
      let yr := x * mf.sinDeg ang + y * mf.cosDeg ang
      let p : Pt2 := (cx + xr, cy + yr)
      if firstPt = none then (current ++ [p], some p)
      else (current ++ [p], firstPt)) st

/-- `hatch_loops`: walk each boundary path's edges, then close the loop with
the first point when the endpoint gap exceeds the `1e-6` tolerance; empty
loops are dropped.  Note that the accumulated transform is nowhere
applied: the loop points are exactly the edges' own coordinates. -/
def hatch_loops (mf : MathFns) (paths : List (List HEdge)) : List (List Pt2) :=
  paths.foldl (fun loops bpath =>
    let walked := bpath.foldl (hatchEdgeStep mf) ([], none)
    let current := walked.1
    if current ≠ [] then
      let closedLoop :=
        match walked.2 with
        | some fp =>
          let lastp := current.getLastD (0, 0)
          if |lastp.1 - fp.1| > 1/1000000 ∨ |lastp.2 - fp.2| > 1/1000000 then
            current ++ [fp]
          else current
        | none => current
      loops ++ [closedLoop]
    else loops) []

/-- The `lw`/`lw_raw`/`lt`/`lt_raw` entries that `base_data()` puts in every
primitive's payload. -/
structure BaseData where
  lw : ℤ
  lw_raw : ℤ
  lt : String
  lt_raw : String
deriving DecidableEq

/-- The kind-specific geometry payload of an emitted primitive (the rest of
the `data` dict). -/
inductive PrimData where
  | line (bd : BaseData) (x1 y1 x2 y2 : ℚ)
  | polyline (bd : BaseData) (pts : List Pt2) (closed : Bool)
  | circle (bd : BaseData) (cx cy r : ℚ)
  | arc (bd : BaseData) (cx cy r startA endA : ℚ)
  | text (bd : BaseData) (x y h rot : ℚ) (value : String)
  | mtext (bd : BaseData) (x y ch rot : ℚ) (value : String)
  | hatch (bd : BaseData) (loops : List (List Pt2)) (solid : Bool)
deriving DecidableEq

/-- The `Primitive` dataclass. -/
structure Primitive where
  tipo : String
  layer : String
  color : RGB
  data : PrimData
  is_block : Bool
  block_name : Option String
deriving DecidableEq

/-- The mutable state of one extraction pass: the growing primitive list,
the `cuenta` counter and the per-block-name repeat tally. -/
structure ExtState where
  prims : List Primitive
  cuenta : ℕ
  block_repeats : List (String × ℕ)
deriving DecidableEq

/-- `add_primitive`: append one primitive and bump `cuenta`. -/
def add_primitive (tipo layer : String) (col : RGB) (data : PrimData)
    (isb : Bool) (bn : Option String) (st : ExtState) : ExtState :=
  ⟨st.prims ++ [⟨tipo, layer, col, data, isb, bn⟩], st.cuenta + 1, st.block_repeats⟩

/-- `block_repeats.get(name, 0)`. -/
def repGet (l : List (String × ℕ)) (n : String) : ℕ :=
  ((l.find? (fun p => p.1 == n)).map (fun p => p.2)).getD 0

/-- `block_repeats[name] = v`. -/
def repSet (l : List (String × ℕ)) (n : String) (v : ℕ) : List (String × ℕ) :=
  if l.any (fun p => p.1 == n) then
    l.map (fun p => if p.1 == n then (n, v) else p)
  else l ++ [(n, v)]

/-- The options captured by the `extraer_primitivas_basicas` closure.
`lim cuenta` is the Python truthiness test `limitar and cuenta >= limitar`
evaluated on the captured `limitar`. -/
structure Opts where
  lim : ℕ → Bool
  expand_blocks : Bool
  max_block_repeats : ℕ
  max_total_after_blocks : ℕ
  incluir_texto : Bool
  incluir_hatch : Bool

/-- `entity_to_prims`, merged with the `for be in blk:` loop over a block's
entities into one list-processing recursion (the Python function processes
one entity and loops over block children calling itself; here the cons
case processes the head entity exactly as the Python body does — entry
guards, visibility, attribute resolution, the per-`dxftype` dispatch and
the INSERT descent — and then recurses on the tail with the same
`transform`/`depth`/`block_name`/`byblock` arguments, which is precisely
that loop). -/
def entity_to_prims_seq (mf : MathFns) (doc : Doc) (o : Opts) :
    List Entity → Option M44 → ℕ → Option String → Option RGB → ExtState → ExtState
  | [], _, _, _, _, st => st
  | e :: rest, transform, depth, bname, byblock, st =>
    let st1 : ExtState :=
      if o.lim st.cuenta then st
      else if st.cuenta ≥ o.max_total_after_blocks then st
      else if ! entidad_visible doc e then st
      else
        let layer := e.layerAttr.getD "0"
        let col := _effective_color doc e byblock
        let lw_val := (_effective_lineweight doc e).1
        let lt_val := (_effective_linetype doc e).1
        let bd : BaseData := ⟨lw_val, e.lineweight.getD 0, lt_val, pyOrS e.linetype "BYLAYER"⟩
        match e.kind with
        | .line p1 p2 =>
          let q1 := apply_point p1 transform
          let q2 := apply_point p2 transform
          add_primitive "LINE" layer col (.line bd q1.1 q1.2.1 q2.1 q2.2.1)
            bname.isSome bname st
        | .lwpolyline vs closed =>
          let pts := vs.map (fun v =>
            let q := apply_point (v.1, v.2, 0) transform
            (q.1, q.2.1))
          if pts ≠ [] then
            add_primitive "POLYLINE" layer col (.polyline bd pts closed)
              bname.isSome bname st
          else st
        | .polyline vs closed =>
          let pts := vs.map (fun loc =>
            let q := apply_point loc transform
            (q.1, q.2.1))
          if pts ≠ [] then
            add_primitive "POLYLINE" layer col (.polyline bd pts closed)
              bname.isSome bname st
          else st
        | .circle center radius =>
          let q := apply_point center transform
          add_primitive "CIRCLE" layer col (.circle bd q.1 q.2.1 radius)
            bname.isSome bname st
        | .arc center radius sa ea =>
          let q := apply_point center transform
          add_primitive "ARC" layer col (.arc bd q.1 q.2.1 radius sa ea)
            bname.isSome bname st
        | .text ins ho rot txt =>
          if o.incluir_texto then
            let q := apply_point ins transform
            let h := pyOrQ ho (5/2)
            let r := pyOrQ rot 0
            if txt.trim ≠ "" then
              add_primitive "TEXT" layer col (.text bd q.1 q.2.1 h r txt)
                bname.isSome bname st
            else st
          else st
        | .mtext ins cho rot plainTx rawTx =>
          if o.incluir_texto then
            let q := apply_point ins transform
            let r := pyOrQ rot 0
            let ch := pyOrQ cho (5/2)
            let content := match plainTx with
              | some s => s
              | none => rawTx
            if content.trim ≠ "" then
              add_primitive "MTEXT" layer col (.mtext bd q.1 q.2.1 ch r content)
                bname.isSome bname st
            else st
          else st
        | .hatch paths solidF =>
          if o.incluir_hatch then
            let loops := hatch_loops mf paths
            if loops ≠ [] then
              add_primitive "HATCH" layer col (.hatch bd loops solidF)
                bname.isSome bname st
            else st
          else st
        | .insert name matr =>
          if o.expand_blocks then
            if _h : depth > 8 then st
            else
              let reps := repGet st.block_repeats name + 1
              let st2 : ExtState := ⟨st.prims, st.cuenta, repSet st.block_repeats name reps⟩
              if reps > o.max_block_repeats then st2
              else
                let colB := _effective_color doc e none
                match blocksGet doc name with
                | none => st2
                | some blk =>
                  match transform, matr with
                  | none, nt =>
                    entity_to_prims_seq mf doc o blk nt (depth + 1)
                      (some name) (some colB) st2
                  | some t, some m =>
                    entity_to_prims_seq mf doc o blk (some (m44mul t m)) (depth + 1)
                      (some name) (some colB) st2
                  | some _, none => st2
          else st
        | .other => st
    entity_to_prims_seq mf doc o rest transform depth bname byblock st1
termination_by es _ depth => (9 - depth, es.length)
decreasing_by
  · apply Prod.Lex.left
    omega
  · apply Prod.Lex.left
    omega
  · apply Prod.Lex.right
    simp

/-- `entity_to_prims` on a single entity. -/
def entity_to_prims (mf : MathFns) (doc : Doc) (o : Opts) (e : Entity)
    (transform : Option M44) (depth : ℕ) (bname : Option String)
    (byblock : Option RGB) (st : ExtState) : ExtState :=
  entity_to_prims_seq mf doc o [e] transform depth bname byblock st

/-- The top-level `for ent in msp:` loop of `extraer_primitivas_basicas`,
with its two `break` conditions. -/
def extract_loop (mf : MathFns) (doc : Doc) (o : Opts) :
    List Entity → ExtState → ExtState
  | [], st => st
  | ent :: rest, st =>
    let st1 := entity_to_prims mf doc o ent none 0 none none st
    if o.lim st1.cuenta then st1
    else if st1.cuenta ≥ o.max_total_after_blocks then st1
    else extract_loop mf doc o rest st1

/-- Python truthiness guard `limitar and cuenta >= limitar`:
`None` and `0` are falsy, so the limit check is disabled for them. -/
def limitHit (limitar : Option ℤ) (cuenta : ℕ) : Bool :=
  match limitar with
  | none => false
  | some l => (l != 0) && (decide (l ≤ (cuenta : ℤ)))

/-- `extraer_primitivas_basicas` (from the point where the document has been
parsed): run the model-space loop with an empty initial state and return
the accumulated primitive list. -/
def extraer_primitivas_basicas (mf : MathFns) (doc : Doc) (limitar : Option ℤ)
    (expand_blocks : Bool) (max_block_repeats max_total_after_blocks : ℕ)
    (incluir_texto incluir_hatch : Bool) : List Primitive :=
  (extract_loop mf doc
    ⟨limitHit limitar, expand_blocks, max_block_repeats, max_total_after_blocks,
      incluir_texto, incluir_hatch⟩
    doc.msp ⟨[], 0, []⟩).prims

/-- The `upd` closure of `calcular_extents_primitivas`: the source keeps
`(xmin, ymin, xmax, ymax)` initialized to `±inf`; `none` models the
untouched `inf` state, so the first point seeds the box and every further
point widens it with `min`/`max`. -/
def updExt (acc : Option (ℚ × ℚ × ℚ × ℚ)) (x y : ℚ) : Option (ℚ × ℚ × ℚ × ℚ) :=
  match acc with
  | none => some (x, y, x, y)
  | some (a, b, c, d) => some (min a x, min b y, max c x, max d y)

/-- The points `calcular_extents_primitivas` feeds to `upd` for one
primitive, in source order: line endpoints, polyline vertices, the two box
corners `center ± radius` for circles and arcs, the insertion point for
text/mtext, and every hatch loop vertex. -/
def extPoints (p : Primitive) : List Pt2 :=
  match p.data with
  | .line _ x1 y1 x2 y2 => [(x1, y1), (x2, y2)]
  | .polyline _ pts _ => pts
  | .circle _ cx cy r => [(cx - r, cy - r), (cx + r, cy + r)]
  | .arc _ cx cy r _ _ => [(cx - r, cy - r), (cx + r, cy + r)]
  | .text _ x y _ _ _ => [(x, y)]
  | .mtext _ x y _ _ _ => [(x, y)]
  | .hatch _ loops _ => loops.flatten

/-- `calcular_extents_primitivas`: fold `upd` over every primitive's
governing points; `none` when no point was contributed. -/
def calcular_extents_primitivas (prims : List Primitive) : Option (ℚ × ℚ × ℚ × ℚ) :=
  prims.foldl (fun acc p => (extPoints p).foldl (fun a q => updExt a q.1 q.2) acc) none

/-- `LOD_BOX_THRESHOLD` from `src/ui/main.py`. -/
def LOD_BOX_THRESHOLD : ℚ := 3/100

/-- `LOD_SIMPLE_THRESHOLD` from `src/ui/main.py`. -/
def LOD_SIMPLE_THRESHOLD : ℚ := 12/100

/-- `LOD_TEXT_THRESHOLD` from `src/ui/main.py`. -/
def LOD_TEXT_THRESHOLD : ℚ := 35/100

/-- `LINEWEIGHT_SCALE_BASE` from `src/ui/main.py` (`2.2`). -/
def LINEWEIGHT_SCALE_BASE : ℚ := 11/5

/-- The box-tier test of `LayerItem.paint`: at `view_scale <
LOD_BOX_THRESHOLD` only the layer's bounding rectangle is drawn and the
method returns before touching any primitive. -/
def boxTierOnly (view_scale : ℚ) : Bool :=
  decide (view_scale < LOD_BOX_THRESHOLD)

/-- `detailed = view_scale >= LOD_SIMPLE_THRESHOLD` in `LayerItem.paint`. -/
def detailedTier (view_scale : ℚ) : Bool :=
  decide (view_scale ≥ LOD_SIMPLE_THRESHOLD)

/-- `show_text = view_scale >= LOD_TEXT_THRESHOLD` in `LayerItem.paint`. -/
def textVisible (view_scale : ℚ) : Bool :=
  decide (view_scale ≥ LOD_TEXT_THRESHOLD)

/-- The pen-width computation of `LayerItem.paint`: zero-width cosmetic pens
below the detailed tier or for non-positive lineweights, otherwise
`(lw/100) * 2.2`, amplified by `1.15` above scale `0.6` and floored at
`0.4` px. -/
def pen_width (view_scale : ℚ) (lw100 : ℤ) : ℚ :=
  if ¬ detailedTier view_scale then 0
  else if lw100 ≤ 0 then 0
  else
    let w := ((lw100 : ℚ) / 100) * LINEWEIGHT_SCALE_BASE
    let w := if view_scale > 6/10 then w * (23/20) else w
    if w < 4/10 then 4/10 else w

/-- Written from the spec's words (§4.5), for comparison with `pen_width`:
`width_px = (lw/100) * 2.2`, amplified ×1.15 when `scale > 0.6`, floored
at `0.4` px if the computed width would be nonzero-but-thin. -/
def penWidthSpec (view_scale : ℚ) (lw100 : ℤ) : ℚ :=
  let w := ((lw100 : ℚ) / 100) * (22/10) * (if view_scale > 6/10 then 23/20 else 1)
  if w ≠ 0 ∧ w < 4/10 then 4/10 else w

/-! ## Claim C7 — LOD render policy -/

/-- Claim C7: the LOD policy, as a pure function of the instantaneous view
scale, selects at scale 0.02 the box tier (paint returns after the layer
bounding rectangle, before any primitive); at scale 0.20 the detailed tier
with text still hidden; at scale 0.40 the detailed tier with text visible;
and in the detailed tier the pen width for `effective_lineweight lw > 0`
equals `(lw/100)*2.2`, multiplied by `1.15` when `scale > 0.6`, floored at
`0.4` px when the computed width would be nonzero-but-thin (the latter
stated as equality of `pen_width` with `penWidthSpec`, the formula written
from the spec's words). -/
theorem C7_lod_policy :
    boxTierOnly (2/100) = true
    ∧ (boxTierOnly (20/100) = false ∧ detailedTier (20/100) = true
        ∧ textVisible (20/100) = false)
    ∧ (detailedTier (40/100) = true ∧ textVisible (40/100) = true)
    ∧ (∀ (s : ℚ) (lw : ℤ), detailedTier s = true → 0 < lw →
        pen_width s lw = penWidthSpec s lw) := by
  refine ⟨by norm_num [boxTierOnly, LOD_BOX_THRESHOLD],
    ⟨by norm_num [boxTierOnly, LOD_BOX_THRESHOLD],
      by norm_num [detailedTier, LOD_SIMPLE_THRESHOLD],
      by norm_num [textVisible, LOD_TEXT_THRESHOLD]⟩,
    ⟨by norm_num [detailedTier, LOD_SIMPLE_THRESHOLD],
      by norm_num [textVisible, LOD_TEXT_THRESHOLD]⟩, ?_⟩
  intro s lw hdet hlw
  have hq : (0:ℚ) < (lw : ℚ) := by exact_mod_cast hlw
  have h2 : ¬ (lw ≤ 0) := by omega
  have hw : (0:ℚ) < ((lw:ℚ) / 100) * (11/5) := by positivity
  simp only [pen_width, penWidthSpec, LINEWEIGHT_SCALE_BASE, hdet, not_true_eq_false,
    if_false, h2, ite_false, ne_eq]
  by_cases hs : s > 6/10
  · rw [if_pos hs, if_pos hs]
    have he : ((lw:ℚ) / 100) * (11/5) * (23/20) = ((lw:ℚ) / 100) * (22/10) * (23/20) := by
      ring
    rw [he]
    have hnz : ¬ ((lw:ℚ) / 100) * (22/10) * (23/20) = 0 := by positivity
    by_cases hlt : ((lw:ℚ) / 100) * (22/10) * (23/20) < 4/10
    · rw [if_pos hlt, if_pos ⟨hnz, hlt⟩]
    · rw [if_neg hlt, if_neg (by tauto)]
  · rw [if_neg hs, if_neg hs]
    have he : ((lw:ℚ) / 100) * (11/5) = ((lw:ℚ) / 100) * (22/10) * 1 := by ring
    rw [he]
    have hnz : ¬ ((lw:ℚ) / 100) * (22/10) * 1 = 0 := by positivity
    by_cases hlt : ((lw:ℚ) / 100) * (22/10) * 1 < 4/10
    · rw [if_pos hlt, if_pos ⟨hnz, hlt⟩]
    · rw [if_neg hlt, if_neg (by tauto)]

/-- Witness for C7: at scale 1 and lineweight 50 the code's pen width and the
spec formula agree. -/
theorem C7_lod_policy_witness :
    pen_width 1 50 = penWidthSpec 1 50 :=
  C7_lod_policy.2.2.2 1 50 (by norm_num [detailedTier, LOD_SIMPLE_THRESHOLD]) (by norm_num)

/-! ## Claim C8 — extents calculator -/

/-- Claim C8: the extents calculator returns `none` on an empty primitive
sequence; on a single LINE from (0,0) to (10,5) it returns exactly
(0,0,10,5); and for CIRCLE and ARC primitives it uses the full-circle
bounding square `center ± radius` (for an ARC, independently of the
start/end angles — the box is not tightened to the angular span). -/
theorem C8_extents :
    calcular_extents_primitivas [] = none
    ∧ (∀ (bd : BaseData) (ly : String) (c : RGB) (ib : Bool) (bn : Option String),
        calcular_extents_primitivas [⟨"LINE", ly, c, .line bd 0 0 10 5, ib, bn⟩]
          = some (0, 0, 10, 5))
    ∧ (∀ (bd : BaseData) (ly : String) (c : RGB) (ib : Bool) (bn : Option String)
        (cx cy r : ℚ), 0 ≤ r →
        calcular_extents_primitivas [⟨"CIRCLE", ly, c, .circle bd cx cy r, ib, bn⟩]
          = some (cx - r, cy - r, cx + r, cy + r))
    ∧ (∀ (bd : BaseData) (ly : String) (c : RGB) (ib : Bool) (bn : Option String)
        (cx cy r sa ea : ℚ), 0 ≤ r →
        calcular_extents_primitivas [⟨"ARC", ly, c, .arc bd cx cy r sa ea, ib, bn⟩]
          = some (cx - r, cy - r, cx + r, cy + r)) := by
  refine ⟨rfl, ?_, ?_, ?_⟩
  · intro bd ly c ib bn
    simp [calcular_extents_primitivas, extPoints, updExt]
  · intro bd ly c ib bn cx cy r hr
    simp only [calcular_extents_primitivas, extPoints, List.foldl_cons, List.foldl_nil, updExt]
    have h1 : min (cx - r) (cx + r) = cx - r := min_eq_left (by linarith)
    have h2 : min (cy - r) (cy + r) = cy - r := min_eq_left (by linarith)
    have h3 : max (cx - r) (cx + r) = cx + r := max_eq_right (by linarith)
    have h4 : max (cy - r) (cy + r) = cy + r := max_eq_right (by linarith)
    rw [h1, h2, h3, h4]
  · intro bd ly c ib bn cx cy r sa ea hr
    simp only [calcular_extents_primitivas, extPoints, List.foldl_cons, List.foldl_nil, updExt]
    have h1 : min (cx - r) (cx + r) = cx - r := min_eq_left (by linarith)
    have h2 : min (cy - r) (cy + r) = cy - r := min_eq_left (by linarith)
    have h3 : max (cx - r) (cx + r) = cx + r := max_eq_right (by linarith)
    have h4 : max (cy - r) (cy + r) = cy + r := max_eq_right (by linarith)
    rw [h1, h2, h3, h4]

/-- Witness for C8: a concrete circle at (3,4) with radius 2 has extents
(1,2,5,6). -/
theorem C8_extents_witness :
    calcular_extents_primitivas
      [⟨"CIRCLE", "0", (255, 255, 255), .circle ⟨0, 0, "CONTINUOUS", "BYLAYER"⟩ 3 4 2,
        false, none⟩]
      = some (1, 2, 5, 6) := by
  have h := C8_extents.2.2.1 ⟨0, 0, "CONTINUOUS", "BYLAYER"⟩ "0" (255, 255, 255) false none
    3 4 2 (by norm_num)
  norm_num at h
  exact h

/-! ## Claim C9 — arc discretization -/

/-- Claim C9: discretizing `start = 0, end = 90, ccw = true, segments = 4`
produces exactly 5 points whose sample angles are `0, 22.5, 45, 67.5, 90`
degrees — equally spaced, inclusive of both endpoints, spanning exactly a
quarter turn and strictly increasing; and in general the normalization
loops make the angular span strictly positive in the chosen direction
(the CCW loop raises the end angle strictly above the start angle, the CW
loop raises the start angle strictly above the end angle, each by whole
turns). -/
theorem C9_arc_discretization :
    (∀ (mf : MathFns) (cx cy r : ℚ),
        (discretizar_arco mf cx cy r 0 90 true 4).length = 5)
    ∧ arcAngles 0 90 true 4 = [0, 45/2, 45, 135/2, 90]
    ∧ List.Chain' (fun a b => a < b) (arcAngles 0 90 true 4)
    ∧ (∀ a0 a1 : ℚ, a0 < normCcwDeg a0 a1)
    ∧ (∀ a0 a1 : ℚ, a1 < normCwDeg a0 a1) := by
  have hnorm : normCcwDeg 0 90 = 90 := by
    rw [normCcwDeg.eq_def]
    norm_num
  have hang : arcAngles 0 90 true 4 = [0, 45/2, 45, 135/2, 90] := by
    simp only [arcAngles, if_true, hnorm]
    norm_num [List.range_succ]
  have hccw : ∀ a0 a1 : ℚ, a0 < normCcwDeg a0 a1 := by
    intro a0 a1
    induction a1 using normCcwDeg.induct a0 with
    | case1 x hle ih =>
      rw [normCcwDeg.eq_def, if_pos hle]
      exact ih
    | case2 x hgt =>
      rw [normCcwDeg.eq_def, if_neg hgt]
      linarith [not_le.mp hgt]
  have hcw : ∀ a0 a1 : ℚ, a1 < normCwDeg a0 a1 := by
    intro a0 a1
    induction a0, a1 using normCwDeg.induct with
    | case1 x y hle ih =>
      rw [normCwDeg.eq_def, if_pos hle]
      exact ih
    | case2 x y hgt =>
      rw [normCwDeg.eq_def, if_neg hgt]
      linarith [not_le.mp hgt]
  refine ⟨?_, hang, ?_, hccw, hcw⟩
  · intro mf cx cy r
    simp [discretizar_arco, hang]
  · rw [hang]
    norm_num

/-! ## Claim C6 — lineweight resolution -/

/-- Valid DXF lineweight raw values: absent, a reserved sentinel
(BYLAYER = -1, BYBLOCK = -2, DEFAULT = -3) or a non-negative width. -/
def validLW : Option ℤ → Bool
  | none => true
  | some v => (v == -1) || (v == -2) || (v == -3) || decide (0 ≤ v)

/-- The layer record the lineweight resolver reads for an entity: `none`
models the raising `doc.layers.get` (missing layer attribute or name not
in the table). -/
def entityLayer (doc : Doc) (e : Entity) : Option LayerRec :=
  match e.layerAttr with
  | none => none
  | some ln => layersGet doc ln

/-- Document for the C6 counterexample: one layer `L` whose lineweight is
the DEFAULT sentinel (-3). -/
def docC6 : Doc := ⟨[⟨"L", none, some (-3), none, false, false⟩], [], []⟩

/-- Entity for the C6 counterexample: lineweight BYLAYER (-1) on layer `L`. -/
def entC6 : Entity := ⟨.other, some "L", none, some (-1), none, false⟩

/-- Claim C6 counterexample: with entity lineweight BYLAYER (-1) and the
layer's lineweight itself a sentinel (-3), the resolver returns
`(0, LAYER)` — the claim requires source `DEFAULT` whenever the layer
value is a sentinel, so the claim is false at this input. -/
theorem C6_counterexample :
    _effective_lineweight docC6 entC6 = (0, Src.LAYER)
    ∧ Src.LAYER ≠ Src.DEFAULT := by
  constructor
  · rfl
  · intro h
    exact Src.noConfusion h

/-- Claim C6 as amended: for every entity whose raw lineweight, and every
layer-table lineweight, is a valid DXF value (absent, sentinel, or
non-negative), the resolver returns a non-negative integer that is never
one of the sentinels -1, -2, -3; a sentinel or absent raw value is replaced
by the entity's layer lineweight with source LAYER — with value 0 (still
source LAYER, not DEFAULT) when the layer's own value is a sentinel — and
falls back to `(0, DEFAULT)` only when the layer lookup fails; otherwise
the raw entity value is used with source ENTITY.  (The final coercion is
to an integer; it is non-negative because of the validity hypotheses, the
code itself never clamps.) -/
theorem C6_lineweight_resolution (doc : Doc) (e : Entity)
    (hent : validLW e.lineweight = true)
    (hlay : ∀ lay ∈ doc.layers, validLW lay.lineweight = true) :
    0 ≤ (_effective_lineweight doc e).1
    ∧ (_effective_lineweight doc e).1 ≠ -1
    ∧ (_effective_lineweight doc e).1 ≠ -2
    ∧ (_effective_lineweight doc e).1 ≠ -3
    ∧ (specialLW e.lineweight = true →
        ((entityLayer doc e = none → _effective_lineweight doc e = (0, Src.DEFAULT))
        ∧ (∀ lay, entityLayer doc e = some lay →
            _effective_lineweight doc e
              = ((if specialLW (some (lay.lineweight.getD 0)) = true then 0
                  else lay.lineweight.getD 0), Src.LAYER))))
    ∧ (specialLW e.lineweight = false →
        _effective_lineweight doc e = (e.lineweight.getD 0, Src.ENTITY)) := by
  have main : 0 ≤ (_effective_lineweight doc e).1 := by
    simp only [_effective_lineweight]
    by_cases hs : specialLW e.lineweight = true
    · rw [if_pos hs]
      rcases he : e.layerAttr with _ | ln
      · simp
      · rcases hg : layersGet doc ln with _ | lay
        · simp [hg]
        · simp only [hg]
          have hmem : lay ∈ doc.layers := List.mem_of_find?_eq_some hg
          have hv := hlay lay hmem
          by_cases hsl : specialLW (some (lay.lineweight.getD 0)) = true
          · simp [hsl]
          · simp only [hsl, if_false, Bool.false_eq_true, Option.getD_some]
            rcases hlw : lay.lineweight with _ | v
            · simp
            · rw [hlw] at hv
              simp only [validLW, Bool.or_eq_true, beq_iff_eq, decide_eq_true_eq] at hv
              simp only [hlw, Option.getD_some, specialLW, Bool.or_eq_true, beq_iff_eq] at hsl ⊢
              push_neg at hsl
              omega
    · rw [if_neg hs]
      rcases hlw : e.lineweight with _ | v
      · rw [hlw] at hs
        simp [specialLW] at hs
      · rw [hlw] at hent hs
        simp only [validLW, Bool.or_eq_true, beq_iff_eq, decide_eq_true_eq] at hent
        simp only [specialLW, Bool.or_eq_true, beq_iff_eq] at hs
        push_neg at hs
        simp only [Option.getD_some]
        omega
  refine ⟨main, by omega, by omega, by omega, ?_, ?_⟩
  · intro hs
    constructor
    · intro hnone
      simp only [_effective_lineweight]
      rw [if_pos hs]
      unfold entityLayer at hnone
      rcases he : e.layerAttr with _ | ln
      · simp [he]
      · rw [he] at hnone
        simp only at hnone
        simp [he, hnone]
    · intro lay hsome
      simp only [_effective_lineweight]
      rw [if_pos hs]
      unfold entityLayer at hsome
      rcases he : e.layerAttr with _ | ln
      · rw [he] at hsome
        exact absurd hsome (by simp)
      · rw [he] at hsome
        simp only at hsome
        simp [he, hsome]
  · intro hs
    simp only [_effective_lineweight]
    rw [if_neg (by simp [hs])]

/-- Witness for C6 (amended): a concrete entity with BYLAYER lineweight on a
layer whose lineweight is 30 resolves to a non-negative value. -/
def docC6w : Doc := ⟨[⟨"W", none, some 30, none, false, false⟩], [], []⟩

/-- Entity for the C6 witness. -/
def entC6w : Entity := ⟨.other, some "W", none, some (-1), none, false⟩

/-- Witness for C6: the amended theorem applied at `docC6w`/`entC6w` with its
hypotheses discharged by evaluation. -/
theorem C6_lineweight_resolution_witness :
    0 ≤ (_effective_lineweight docC6w entC6w).1 :=
  (C6_lineweight_resolution docC6w entC6w (by decide) (by decide)).1

/-! ## Concrete documents for the extraction claims -/

/-- A `MathFns` instance for concrete runs; the evaluated inputs never reach
a transcendental function, so the constant-zero record suffices. -/
def mfZero : MathFns :=
  ⟨fun _ => 0, fun _ => 0, fun _ => 0, fun _ => 0, fun _ _ => 0, fun _ _ => 0, fun _ => 0⟩

/-- The outermost insert of the C1 document: explicit colour 1 (red),
inserting block `B1`. -/
def entC1outer : Entity := ⟨.insert "B1" none, some "0", some 1, none, none, false⟩

/-- The intermediate insert of the C1 document: colour BYBLOCK (0) on layer
`LM`, inserting block `B2`. -/
def entC1mid : Entity := ⟨.insert "B2" none, some "LM", some 0, none, none, false⟩

/-- The innermost entity of the C1 document: a LINE with colour BYBLOCK (0). -/
def entC1line : Entity := ⟨.line (0, 0, 0) (1, 0, 0), some "LE", some 0, none, none, false⟩

/-- C1 document: `msp = [outer insert (colour 1)]`, block `B1` holds the
BYBLOCK intermediate insert on layer `LM` (layer colour 5, blue), block
`B2` holds the BYBLOCK LINE. -/
def docC1 : Doc :=
  ⟨[⟨"LM", some 5, none, none, false, false⟩, ⟨"LE", none, none, none, false, false⟩],
   [("B1", [entC1mid]), ("B2", [entC1line])],
   [entC1outer]⟩

/-! ## Claim C1 — BYBLOCK propagation across two insert levels -/

/-- Claim C1 (code bug): with the outermost insert carrying explicit colour 1
(red) and both the intermediate insert and the line carrying BYBLOCK, the
emitted primitive's colour is `(0,0,255)` — the RGB of the intermediate
insert's LAYER colour 5 — and not the outermost insert's own resolved
colour `(255,0,0)` required by the claim.  The slip is at the INSERT
branch of `entity_to_prims` (`cat_loader.py:728`), which computes the
colour propagated to children with `byblock_color=None` instead of the
inherited value, so a BYBLOCK intermediate insert resolves to its layer
instead of forwarding the outer insert's colour. -/
theorem C1_byblock_not_propagated :
    (extraer_primitivas_basicas mfZero docC1 none true 8000 250000 true true).map
        Primitive.color = [(0, 0, 255)]
    ∧ _effective_color docC1 entC1outer none = (255, 0, 0)
    ∧ aci_to_rgb 5 = (0, 0, 255)
    ∧ ((0, 0, 255) : RGB) ≠ (255, 0, 0) := by
  refine ⟨?_, ?_, by norm_num [aci_to_rgb], by decide⟩
  · simp [extraer_primitivas_basicas, extract_loop, entity_to_prims, entity_to_prims_seq,
      entidad_visible, _layer_is_visible, layersGet, blocksGet, _effective_color,
      _effective_lineweight, _effective_linetype, specialLW, badLT, aci_to_rgb,
      add_primitive, repGet, repSet, apply_point, pyOrS, pyOrQ, limitHit,
      entC1outer, entC1mid, entC1line, docC1]
  · simp [_effective_color, aci_to_rgb, entC1outer, docC1, layersGet]

/-! ## Claim C2 — hatch geometry is emitted untransformed -/

/-- Translation by (10, 0): the ezdxf `Matrix44` of the C2 insert (identity
linear part, translation in the fourth row). -/
def mT10 : M44 := fun i j =>
  if i = j then 1 else if i = 3 ∧ j = 0 then 10 else 0

/-- The hatch entity of the C2 document: one boundary path consisting of a
single line edge from (0,0) to (5,0), inside block `B`. -/
def entC2hatch : Entity := ⟨.hatch [[.lineE 0 0 5 0]] false, some "0", none, none, none, false⟩

/-- The C2 model-space insert: block `B` placed with translation (10, 0). -/
def entC2ins : Entity := ⟨.insert "B" (some mT10), some "0", none, none, none, false⟩

/-- C2 document: a hatch inside a block, inserted at translation (10, 0). -/
def docC2 : Doc := ⟨[], [("B", [entC2hatch])], [entC2ins]⟩

/-- Claim C2 (code bug): the HATCH primitive extracted from inside the
translated block carries the block-LOCAL loop `[(0,0), (5,0), (0,0)]` —
`hatch_loops` (`cat_loader.py:536`) never applies the accumulated insert
transform, while applying it (as the claim requires for document-space
coordinates) would give `[(10,0), (15,0), (10,0)]`. -/
theorem C2_hatch_not_transformed :
    (extraer_primitivas_basicas mfZero docC2 none true 8000 250000 true true).map
        Primitive.data
      = [.hatch ⟨0, 0, "CONTINUOUS", "BYLAYER"⟩ [[(0, 0), (5, 0), (0, 0)]] false]
    ∧ ([[(0, 0), (5, 0), (0, 0)]] : List (List Pt2)).map
        (List.map (fun q =>
          ((apply_point (q.1, q.2, 0) (some mT10)).1,
           (apply_point (q.1, q.2, 0) (some mT10)).2.1)))
      = [[(10, 0), (15, 0), (10, 0)]]
    ∧ ([[(0, 0), (5, 0), (0, 0)]] : List (List Pt2)) ≠ [[(10, 0), (15, 0), (10, 0)]] := by
  refine ⟨?_, ?_, by norm_num⟩
  · simp [extraer_primitivas_basicas, extract_loop, entity_to_prims, entity_to_prims_seq,
      entidad_visible, _layer_is_visible, layersGet, blocksGet, _effective_color,
      _effective_lineweight, _effective_linetype, specialLW, badLT, aci_to_rgb,
      add_primitive, repGet, repSet, apply_point, pyOrS, pyOrQ, limitHit,
      hatch_loops, hatchEdgeStep, entC2hatch, entC2ins, docC2]
    try norm_num
  · simp +decide [apply_point, m44transform, mT10]
    try norm_num

/-! ## Claim C3 — composition order of nested insert transforms -/

/-- Translation by (1, 0): the placement matrix of the C3 outer insert. -/
def mTr1 : M44 := fun i j =>
  if i = j then 1 else if i = 3 ∧ j = 0 then 1 else 0

/-- Rotation by 90° about the origin in ezdxf row-vector form
(first row `(cos, sin, 0, 0)`, second `(-sin, cos, 0, 0)`): the placement
matrix of the C3 inner insert. -/
def mRot90 : M44 := fun i j =>
  if i = 0 ∧ j = 1 then 1
  else if i = 1 ∧ j = 0 then -1
  else if i = 2 ∧ j = 2 then 1
  else if i = 3 ∧ j = 3 then 1
  else 0

/-- The C3 inner insert: block `B2` placed with the 90° rotation, inside
block `B1`. -/
def entC3mid : Entity := ⟨.insert "B2" (some mRot90), some "0", none, none, none, false⟩

/-- The C3 grandchild entity: a degenerate LINE at (1, 0). -/
def entC3line : Entity := ⟨.line (1, 0, 0) (1, 0, 0), some "0", none, none, none, false⟩

/-- The C3 model-space insert: block `B1` placed with translation (1, 0). -/
def entC3outer : Entity := ⟨.insert "B1" (some mTr1), some "0", none, none, none, false⟩

/-- C3 document: a 2-level nested insert, outer translation (1,0), inner
rotation 90°. -/
def docC3 : Doc := ⟨[], [("B1", [entC3mid]), ("B2", [entC3line])], [entC3outer]⟩

/-- Claim C3 (code bug): the code composes `next = transform @ m`
(`cat_loader.py:732`), which under ezdxf's row-vector convention applies
the parent's accumulated transform FIRST and the child's placement
SECOND; on the C3 document the grandchild point (1,0) is emitted at
(0,2), whereas applying the inner (rotation) transform first and then the
outer (translation) — as the claim requires — gives (1,1). -/
theorem C3_composition_order_wrong :
    (extraer_primitivas_basicas mfZero docC3 none true 8000 250000 true true).map
        Primitive.data
      = [.line ⟨0, 0, "CONTINUOUS", "BYLAYER"⟩ 0 2 0 2]
    ∧ m44transform mTr1 (m44transform mRot90 (1, 0, 0)) = (1, 1, 0)
    ∧ (((0 : ℚ), (2 : ℚ)) : Pt2) ≠ ((1 : ℚ), (1 : ℚ)) := by
  refine ⟨?_, ?_, by norm_num⟩
  · simp [extraer_primitivas_basicas, extract_loop, entity_to_prims, entity_to_prims_seq,
      entidad_visible, _layer_is_visible, layersGet, blocksGet, _effective_color,
      _effective_lineweight, _effective_linetype, specialLW, badLT, aci_to_rgb,
      add_primitive, repGet, repSet, apply_point, m44transform, m44mul, pyOrS, pyOrQ,
      limitHit, entC3mid, entC3line, entC3outer, docC3, mTr1, mRot90]
    try norm_num
  · simp +decide [m44transform, mTr1, mRot90]
    try norm_num

/-! ## Claim C5 — depth cap and termination on cyclic block graphs -/

/-- The line inside the cyclic C5 block. -/
def entC5line : Entity := ⟨.line (0, 0, 0) (1, 0, 0), some "0", none, none, none, false⟩

/-- The self-referencing insert of the C5 block. -/
def entC5ins : Entity := ⟨.insert "B" none, some "0", none, none, none, false⟩

/-- C5 document: block `B` contains a LINE and an insert of `B` itself, and
model space inserts `B` — a cyclic block graph. -/
def docC5 : Doc := ⟨[], [("B", [entC5line, entC5ins])], [entC5ins]⟩

/-- Claim C5: expansion of an Insert encountered at depth > 8 silently leaves
the extraction state unchanged (no error, no primitive from any deeper
level), for every document, option setting and state; consequently
extraction terminates on every input: on the cyclic document `docC5`
(block `B` inserting itself) it returns exactly the nine LINE primitives
of expansion depths 1–9 and stops. -/
theorem C5_depth_cap :
    (∀ (mf : MathFns) (doc : Doc) (o : Opts) (name : String) (matr : Option M44)
        (la : Option String) (c lw : Option ℤ) (lt : Option String) (inv : Bool)
        (tr : Option M44) (depth : ℕ) (bn : Option String) (bb : Option RGB)
        (st : ExtState), depth > 8 →
        entity_to_prims mf doc o ⟨.insert name matr, la, c, lw, lt, inv⟩ tr depth bn bb st
          = st)
    ∧ (extraer_primitivas_basicas mfZero docC5 none true 8000 250000 true true).length = 9
    ∧ (extraer_primitivas_basicas mfZero docC5 none true 8000 250000 true true).map
        Primitive.tipo = List.replicate 9 "LINE" := by
  refine ⟨?_, ?_, ?_⟩
  · intro mf doc o name matr la c lw lt inv tr depth bn bb st hd
    simp only [entity_to_prims, entity_to_prims_seq]
    split_ifs <;> rfl
  · simp [extraer_primitivas_basicas, extract_loop, entity_to_prims, entity_to_prims_seq,
      entidad_visible, _layer_is_visible, layersGet, blocksGet, _effective_color,
      _effective_lineweight, _effective_linetype, specialLW, badLT, aci_to_rgb,
      add_primitive, repGet, repSet, apply_point, pyOrS, pyOrQ, limitHit,
      entC5line, entC5ins, docC5]
  · simp [extraer_primitivas_basicas, extract_loop, entity_to_prims, entity_to_prims_seq,
      entidad_visible, _layer_is_visible, layersGet, blocksGet, _effective_color,
      _effective_lineweight, _effective_linetype, specialLW, badLT, aci_to_rgb,
      add_primitive, repGet, repSet, apply_point, pyOrS, pyOrQ, limitHit,
      entC5line, entC5ins, docC5, List.replicate]

/-- Witness for C5: the depth-cap conjunct applied concretely — an insert of
the (undefined) block `X` processed at depth 9 leaves the empty state
unchanged. -/
theorem C5_depth_cap_witness :
    entity_to_prims mfZero docC5 ⟨limitHit none, true, 8000, 250000, true, true⟩
      ⟨.insert "X" none, some "0", none, none, none, false⟩ none 9 none none ⟨[], 0, []⟩
      = ⟨[], 0, []⟩ :=
  C5_depth_cap.1 mfZero docC5 ⟨limitHit none, true, 8000, 250000, true, true⟩
    "X" none (some "0") none none none false none 9 none none ⟨[], 0, []⟩ (by decide)

/-! ## Claim C10 — falsy limit disables the pre-expansion cut -/

/-- C10 document: a single model-space LINE. -/
def docC10 : Doc := ⟨[], [], [⟨.line (0, 0, 0) (1, 1, 0), some "0", none, none, none, false⟩]⟩

/-- Claim C10: `limitar = 0` is falsy in the guard
`if limitar and cuenta >= limitar`, so the pre-expansion limit check is
disabled exactly as with `limitar = None`: extraction with `some 0`
coincides with extraction with `none` on every document and every other
option, and a caller passing `limit = 0` does not get an empty result —
on a one-line document it still returns that one primitive. -/
theorem C10_zero_limit_disabled :
    (∀ (mf : MathFns) (doc : Doc) (eb : Bool) (mbr mtab : ℕ) (inclT inclH : Bool),
        extraer_primitivas_basicas mf doc (some 0) eb mbr mtab inclT inclH
          = extraer_primitivas_basicas mf doc none eb mbr mtab inclT inclH)
    ∧ (extraer_primitivas_basicas mfZero docC10 (some 0) true 8000 250000 true true).length
        = 1 := by
  constructor
  · intro mf doc eb mbr mtab inclT inclH
    have h : limitHit (some 0) = limitHit none := by
      funext c
      simp [limitHit]
    simp only [extraer_primitivas_basicas]
    rw [h]
  · simp [extraer_primitivas_basicas, extract_loop, entity_to_prims, entity_to_prims_seq,
      entidad_visible, _layer_is_visible, layersGet, blocksGet, _effective_color,
      _effective_lineweight, _effective_linetype, specialLW, badLT, aci_to_rgb,
      add_primitive, repGet, repSet, apply_point, pyOrS, pyOrQ, limitHit, docC10]


/-! ## Claim C4 — the global primitive cap -/

/-- The step invariant behind the global cap: a single pass step may only
grow `cuenta` up to the cap, and the primitive list grows in lockstep with
`cuenta`. -/
def capInv (mtab : ℕ) (st st' : ExtState) : Prop :=
  st'.cuenta ≤ max st.cuenta mtab
  ∧ st'.prims.length + st.cuenta = st'.cuenta + st.prims.length

/-- `capInv` is reflexive. -/
theorem capInv_rfl (mtab : ℕ) (st : ExtState) : capInv mtab st st :=
  ⟨le_max_left _ _, by omega⟩

/-- `capInv` composes transitively along successive state updates. -/
theorem capInv_trans {m : ℕ} {a b c : ExtState} :
    capInv m a b → capInv m b c → capInv m a c := by
  rintro ⟨h1, h2⟩ ⟨h3, h4⟩
  constructor
  · omega
  · omega

/-- Updating only `block_repeats` preserves `capInv`. -/
theorem capInv_same (m : ℕ) (st : ExtState) (r : List (String × ℕ)) :
    capInv m st ⟨st.prims, st.cuenta, r⟩ :=
  ⟨le_max_left _ _, by
    show st.prims.length + st.cuenta = st.cuenta + st.prims.length
    omega⟩

/-- `add_primitive` preserves `capInv` when `cuenta` is still below the cap
(which the entry guard of `entity_to_prims` guarantees). -/
theorem capInv_add (m : ℕ) (st : ExtState) (t l : String) (c : RGB) (d : PrimData)
    (ib : Bool) (bn : Option String) (h : st.cuenta < m) :
    capInv m st (add_primitive t l c d ib bn st) := by
  constructor
  · simp only [add_primitive]
    omega
  · simp [add_primitive]
    omega

set_option maxHeartbeats 1000000 in
/-- The extraction recursion satisfies the cap invariant: every branch of
the per-entity body either leaves the state unchanged, adds one primitive
under the `cuenta < max_total_after_blocks` entry guard, or recurses from
a state with unchanged `cuenta`/`prims`. -/
theorem seq_capInv (mf : MathFns) (doc : Doc) (o : Opts) :
    ∀ (es : List Entity) (tr : Option M44) (depth : ℕ) (bn : Option String)
      (bb : Option RGB) (st : ExtState),
      capInv o.max_total_after_blocks st (entity_to_prims_seq mf doc o es tr depth bn bb st) := by
  intro es tr depth bn bb st
  induction es, tr, depth, bn, bb, st using entity_to_prims_seq.induct mf doc o with
  | case1 tr depth bn bb st =>
    rw [entity_to_prims_seq]
    exact capInv_rfl _ _
  | case2 e rest transform depth bname byblock st st1 ih1 ih2 ih3 ih4 ih5 ih6 ihrest =>
    rw [entity_to_prims_seq]
    refine capInv_trans ?_ ihrest
    unfold st1
    by_cases hlim : o.lim st.cuenta = true
    · rw [dif_pos hlim]
      exact capInv_rfl _ _
    · rw [dif_neg hlim]
      by_cases hcap : st.cuenta ≥ o.max_total_after_blocks
      · rw [dif_pos hcap]
        exact capInv_rfl _ _
      · rw [dif_neg hcap]
        by_cases hvis : (! entidad_visible doc e) = true
        · rw [dif_pos hvis]
          exact capInv_rfl _ _
        · rw [dif_neg hvis]
          cases hk : e.kind with
          | line p1 p2 =>
            exact capInv_add _ _ _ _ _ _ _ _ (by omega)
          | lwpolyline vs closed =>
            dsimp only
            split
            · exact capInv_add _ _ _ _ _ _ _ _ (by omega)
            · exact capInv_rfl _ _
          | polyline vs closed =>
            dsimp only
            split
            · exact capInv_add _ _ _ _ _ _ _ _ (by omega)
            · exact capInv_rfl _ _
          | circle center radius => exact capInv_add _ _ _ _ _ _ _ _ (by omega)
          | arc center radius sa ea => exact capInv_add _ _ _ _ _ _ _ _ (by omega)
          | text ins ho rot txt =>
            dsimp only
            split
            · split
              · exact capInv_add _ _ _ _ _ _ _ _ (by omega)
              · exact capInv_rfl _ _
            · exact capInv_rfl _ _
          | mtext ins cho rot plainTx rawTx =>
            dsimp only
            split
            · split
              · exact capInv_add _ _ _ _ _ _ _ _ (by omega)
              · exact capInv_rfl _ _
            · exact capInv_rfl _ _
          | hatch paths solidF =>
            dsimp only
            split
            · split
              · exact capInv_add _ _ _ _ _ _ _ _ (by omega)
              · exact capInv_rfl _ _
            · exact capInv_rfl _ _
          | insert name matr =>
            dsimp only
            split
            · split
              · exact capInv_rfl _ _
              · next hdep =>
                split
                · exact capInv_same _ _ _
                · split
                  · exact capInv_same _ _ _
                  · next blk hblk =>
                    split
                    · exact capInv_trans (capInv_same _ _ _) (ih3 name hdep blk matr)
                    · next t m =>
                      exact capInv_trans (capInv_same _ _ _) (ih4 name hdep blk t m)
                    · exact capInv_same _ _ _
            · exact capInv_rfl _ _
          | other => exact capInv_rfl _ _


/-- The model-space loop preserves the cap invariant. -/
theorem loop_capInv (mf : MathFns) (doc : Doc) (o : Opts) :
    ∀ (ents : List Entity) (st : ExtState),
      capInv o.max_total_after_blocks st (extract_loop mf doc o ents st) := by
  intro ents
  induction ents with
  | nil =>
    intro st
    rw [extract_loop]
    exact capInv_rfl _ _
  | cons ent rest ih =>
    intro st
    rw [extract_loop]
    have h1 : capInv o.max_total_after_blocks st
        (entity_to_prims mf doc o ent none 0 none none st) :=
      seq_capInv mf doc o [ent] none 0 none none st
    split_ifs with ha hb
    · exact h1
    · exact h1
    · exact capInv_trans h1 (ih _)

/-- Claim C4: for every input document and every options setting — including
block graphs that would induce exponential instance growth, such as a
block containing inserts of itself nested deeply — the extraction pass
returns at most `max_total_after_blocks` primitives: every call of
`entity_to_prims` returns as soon as `cuenta` has reached the cap and
adds at most one primitive otherwise. -/
theorem C4_global_cap (mf : MathFns) (doc : Doc) (limitar : Option ℤ)
    (expand_blocks : Bool) (max_block_repeats max_total_after_blocks : ℕ)
    (incluir_texto incluir_hatch : Bool) :
    (extraer_primitivas_basicas mf doc limitar expand_blocks max_block_repeats
        max_total_after_blocks incluir_texto incluir_hatch).length
      ≤ max_total_after_blocks := by
  have h := loop_capInv mf doc ⟨limitHit limitar, expand_blocks, max_block_repeats,
    max_total_after_blocks, incluir_texto, incluir_hatch⟩ doc.msp ⟨[], 0, []⟩
  simp [capInv] at h
  simp only [extraer_primitivas_basicas]
  omega


end ComCAD
